import Mathlib

/-!
Verification of the child-process supervisor in `internal/jsb_process.cpp`
(GodotJS). The development embeds, as executable Lean definitions:

* the per-chunk escape-filter / line-assembler loop shared by the Windows and
  POSIX `ProcessImpl::_thread_run` bodies (bytes are modelled as `Nat` values
  below 256);
* the two platform `_flush` routines that decode an accumulated line buffer and
  decide whether a log entry is emitted;
* the Windows command-line argument quoting;
* the lifecycle operations `on_start` / `on_stop` / `_is_running` / `stop` /
  `start` / `create`, with the OS calls (pipe creation, process creation,
  exit-code query, kill, close, thread join) abstracted into explicit
  environment records and action traces.
-/

namespace JsbProcess

/-! ## Escape filter and line assembler (`ProcessImpl::_thread_run`)

The Windows and POSIX reader loops process each read chunk with the identical
per-byte logic (jsb_process.cpp lines 166-213 and 331-379): an index loop that
skips ANSI escape sequences and otherwise feeds bytes to the line assembler.
-/

/-- Embeds the CSI inner scan (`while (i < read) { c = buffer[i]; if (c >= 0x40
&& c <= 0x7E) break; ++i; }` followed by the `++i` of the outer loop): the
returned list is what remains of the chunk after the scan consumed the
parameter bytes and the final byte. Running off the end of the chunk leaves
nothing. -/
def csiSkip : List Nat → List Nat
  | [] => []
  | c :: rest => if 64 ≤ c ∧ c ≤ 126 then rest else csiSkip rest

/-- Embeds the OSC inner scan: bytes are consumed until a BEL (0x07) or the
two-byte terminator ESC `\` (0x1B 0x5C); the terminator itself is consumed as
well (the `break` leaves `i` on the last terminator byte and the outer loop's
`++i` steps past it). An ESC not followed by `\` is consumed and scanning
continues; running off the end of the chunk leaves nothing. -/
def oscSkip : List Nat → List Nat
  | [] => []
  | c :: rest =>
    if c = 7 then rest
    else if c = 27 then
      match rest with
      | [] => []
      | d :: rest2 => if d = 92 then rest2 else oscSkip rest
    else oscSkip rest

theorem csiSkip_length_le (l : List Nat) : (csiSkip l).length ≤ l.length := by
  induction l with
  | nil => simp [csiSkip]
  | cons c rest ih =>
    simp only [csiSkip]
    split
    · simp
    · exact Nat.le_succ_of_le ih

theorem oscSkip_length_le (l : List Nat) : (oscSkip l).length ≤ l.length := by
  induction l with
  | nil => simp [oscSkip]
  | cons c rest ih =>
    simp only [oscSkip]
    by_cases h7 : c = 7
    · simp [h7]
    · by_cases h27 : c = 27
      · simp only [if_neg h7, if_pos h27]
        cases rest with
        | nil => simp
        | cons d rest2 =>
          by_cases h92 : d = 92
          · simp [h92]
            omega
          · simpa [h92] using Nat.le_succ_of_le ih
      · simp only [if_neg h7, if_neg h27]
        exact Nat.le_succ_of_le ih

/-- Embeds one execution of the chunk-consuming `for` loop body of
`_thread_run` over a whole chunk. Arguments: the current `rd_line` buffer, the
list of raw buffers handed to `_flush` so far (each is the line content with
the appended 0 terminator, as in `_append_char_to_line(0); _flush();`), and the
chunk bytes. An ESC (27) starts sequence skipping: with no byte after it in
the chunk it is simply dropped; `[` (91) starts a CSI skip, `]` (93) an OSC
skip, anything else is a two-byte sequence. A `\n` (10) or `\r` (13) appends
the 0 terminator, flushes and clears the buffer; any other byte is appended. -/
def consumeChunk : List Nat → List (List Nat) → List Nat → List Nat × List (List Nat)
  | line, emitted, [] => (line, emitted)
  | line, emitted, b :: rest =>
    if b = 27 then
      match rest with
      | [] => (line, emitted)
      | next :: rest2 =>
        if next = 91 then consumeChunk line emitted (csiSkip rest2)
        else if next = 93 then consumeChunk line emitted (oscSkip rest2)
        else consumeChunk line emitted rest2
    else if b = 10 ∨ b = 13 then
      consumeChunk [] (emitted ++ [line ++ [0]]) rest
    else
      consumeChunk (line ++ [b]) emitted rest
termination_by _ _ chunk => chunk.length
decreasing_by
  all_goals simp only [List.length_cons]
  all_goals first
    | exact Nat.lt_succ_of_lt (Nat.lt_succ_of_le (csiSkip_length_le _))
    | exact Nat.lt_succ_of_lt (Nat.lt_succ_of_le (oscSkip_length_le _))
    | omega

theorem consumeChunk_csi (l : List Nat) (e : List (List Nat)) (rest2 : List Nat) :
    consumeChunk l e (27 :: 91 :: rest2) = consumeChunk l e (csiSkip rest2) := by
  simp [consumeChunk]

theorem consumeChunk_osc (l : List Nat) (e : List (List Nat)) (rest2 : List Nat) :
    consumeChunk l e (27 :: 93 :: rest2) = consumeChunk l e (oscSkip rest2) := by
  simp [consumeChunk]

theorem consumeChunk_newline (l : List Nat) (e : List (List Nat)) (b : Nat)
    (rest : List Nat) (hb : b = 10 ∨ b = 13) :
    consumeChunk l e (b :: rest) = consumeChunk [] (e ++ [l ++ [0]]) rest := by
  have h27 : ¬b = 27 := by rcases hb with h | h <;> omega
  rw [consumeChunk.eq_def]
  simp [h27, hb]

theorem consumeChunk_plain (l : List Nat) (e : List (List Nat)) (b : Nat)
    (rest : List Nat) (h27 : ¬b = 27) (hb : ¬(b = 10 ∨ b = 13)) :
    consumeChunk l e (b :: rest) = consumeChunk (l ++ [b]) e rest := by
  rw [consumeChunk.eq_def]
  simp [h27, hb]

/-- The CSI inner scan consumes exactly the non-final parameter bytes and the
first final byte (0x40-0x7E) it meets. -/
theorem csiSkip_closed (ps : List Nat) (f : Nat) (suf : List Nat)
    (hps : ∀ c ∈ ps, ¬(64 ≤ c ∧ c ≤ 126)) (hf : 64 ≤ f ∧ f ≤ 126) :
    csiSkip (ps ++ f :: suf) = suf := by
  induction ps with
  | nil => simp [csiSkip, hf]
  | cons c ps ih =>
    have hc := hps c (List.mem_cons_self c ps)
    simp only [List.cons_append, csiSkip, if_neg hc]
    exact ih fun d hd => hps d (List.mem_cons_of_mem c hd)

/-- The OSC inner scan consumes exactly the payload (free of BEL and ESC) and
a BEL terminator. -/
theorem oscSkip_bel (ps : List Nat) (suf : List Nat)
    (hps : ∀ c ∈ ps, c ≠ 7 ∧ c ≠ 27) :
    oscSkip (ps ++ 7 :: suf) = suf := by
  induction ps with
  | nil => simp [oscSkip]
  | cons c ps ih =>
    have hc := hps c (List.mem_cons_self c ps)
    simp only [List.cons_append, oscSkip, if_neg hc.1, if_neg hc.2]
    exact ih fun d hd => hps d (List.mem_cons_of_mem c hd)

/-- The OSC inner scan consumes exactly the payload (free of BEL and ESC) and
an ESC `\` terminator. -/
theorem oscSkip_st (ps : List Nat) (suf : List Nat)
    (hps : ∀ c ∈ ps, c ≠ 7 ∧ c ≠ 27) :
    oscSkip (ps ++ 27 :: 92 :: suf) = suf := by
  induction ps with
  | nil => simp [oscSkip]
  | cons c ps ih =>
    have hc := hps c (List.mem_cons_self c ps)
    simp only [List.cons_append, oscSkip, if_neg hc.1, if_neg hc.2]
    exact ih fun d hd => hps d (List.mem_cons_of_mem c hd)

/-- Chunk processing is compositional at any boundary whose left part contains
no ESC byte: the second part is consumed starting from the line buffer and
emitted lines produced by the first. (This is the line-assembler restartability
that does hold; the escape-filter state, by contrast, is local to one chunk.) -/
theorem consumeChunk_append_of_noEsc (c1 : List Nat) (h : ∀ b ∈ c1, b ≠ 27) :
    ∀ (l : List Nat) (e : List (List Nat)) (c2 : List Nat),
      consumeChunk l e (c1 ++ c2) =
        consumeChunk (consumeChunk l e c1).1 (consumeChunk l e c1).2 c2 := by
  induction c1 with
  | nil => intro l e c2; simp [consumeChunk]
  | cons b rest ih =>
    intro l e c2
    have hb : b ≠ 27 := h b (List.mem_cons_self b rest)
    have hrest : ∀ x ∈ rest, x ≠ 27 := fun x hx => h x (List.mem_cons_of_mem b hx)
    by_cases hnl : b = 10 ∨ b = 13
    · rw [List.cons_append, consumeChunk_newline l e b (rest ++ c2) hnl,
        consumeChunk_newline l e b rest hnl, ih hrest]
    · rw [List.cons_append, consumeChunk_plain l e b (rest ++ c2) hb hnl,
        consumeChunk_plain l e b rest hb hnl, ih hrest]

/-- A well-formed CSI sequence standing alone at the head of the remaining
chunk is dropped in full. -/
theorem consumeChunk_drops_csi (l : List Nat) (e : List (List Nat))
    (ps : List Nat) (f : Nat) (suf : List Nat)
    (hps : ∀ c ∈ ps, ¬(64 ≤ c ∧ c ≤ 126)) (hf : 64 ≤ f ∧ f ≤ 126) :
    consumeChunk l e ((27 :: 91 :: ps ++ [f]) ++ suf) = consumeChunk l e suf := by
  have : (27 :: 91 :: ps ++ [f]) ++ suf = 27 :: 91 :: (ps ++ f :: suf) := by
    simp
  rw [this, consumeChunk_csi, csiSkip_closed ps f suf hps hf]

/-- A well-formed OSC sequence (BEL- or ESC-`\`-terminated) standing alone at
the head of the remaining chunk is dropped in full. -/
theorem consumeChunk_drops_osc (l : List Nat) (e : List (List Nat))
    (ps : List Nat) (t : List Nat) (suf : List Nat)
    (hps : ∀ c ∈ ps, c ≠ 7 ∧ c ≠ 27) (ht : t = [7] ∨ t = [27, 92]) :
    consumeChunk l e ((27 :: 93 :: ps ++ t) ++ suf) = consumeChunk l e suf := by
  rcases ht with ht | ht
  · have : (27 :: 93 :: ps ++ t) ++ suf = 27 :: 93 :: (ps ++ 7 :: suf) := by
      simp [ht]
    rw [this, consumeChunk_osc, oscSkip_bel ps suf hps]
  · have : (27 :: 93 :: ps ++ t) ++ suf = 27 :: 93 :: (ps ++ 27 :: 92 :: suf) := by
      simp [ht]
    rw [this, consumeChunk_osc, oscSkip_st ps suf hps]

/-- C4: for every chunk containing a well-formed CSI sequence (ESC `[`
parameter bytes outside 0x40-0x7E, then a final byte in 0x40-0x7E) or a
well-formed OSC sequence (ESC `]` payload free of BEL/ESC, terminated by BEL
or by ESC `\`), the escape filter drops every byte of the sequence including
its terminator, and the bytes before (containing no ESC) and after the
sequence are processed exactly as if the sequence were absent. -/
theorem c4_escape_filter_removes_sequences (l : List Nat) (e : List (List Nat))
    (pre suf ps t : List Nat) (f : Nat) (hpre : ∀ b ∈ pre, b ≠ 27) :
    ((∀ c ∈ ps, ¬(64 ≤ c ∧ c ≤ 126)) → 64 ≤ f ∧ f ≤ 126 →
      consumeChunk l e (pre ++ (27 :: 91 :: ps ++ [f]) ++ suf) =
        consumeChunk l e (pre ++ suf)) ∧
    ((∀ c ∈ ps, c ≠ 7 ∧ c ≠ 27) → (t = [7] ∨ t = [27, 92]) →
      consumeChunk l e (pre ++ (27 :: 93 :: ps ++ t) ++ suf) =
        consumeChunk l e (pre ++ suf)) := by
  constructor
  · intro hps hf
    rw [List.append_assoc, consumeChunk_append_of_noEsc pre hpre,
      consumeChunk_drops_csi _ _ ps f suf hps hf,
      ← consumeChunk_append_of_noEsc pre hpre]
  · intro hps ht
    rw [List.append_assoc, consumeChunk_append_of_noEsc pre hpre,
      consumeChunk_drops_osc _ _ ps t suf hps ht,
      ← consumeChunk_append_of_noEsc pre hpre]

/-- C4 witness: the chunk "a ESC [ 2 J b" collapses to "ab", and the chunk
"a ESC ] 0 BEL b" collapses to "ab". -/
theorem c4_witness :
    consumeChunk [] [] ([97] ++ (27 :: 91 :: [50] ++ [74]) ++ [98]) =
      consumeChunk [] [] ([97] ++ [98]) ∧
    consumeChunk [] [] ([97] ++ (27 :: 93 :: [48] ++ [7]) ++ [98]) =
      consumeChunk [] [] ([97] ++ [98]) :=
  ⟨(c4_escape_filter_removes_sequences [] [] [97] [98] [50] [7] 74
      (by decide)).1 (by decide) (by decide),
   (c4_escape_filter_removes_sequences [] [] [97] [98] [48] [7] 74
      (by decide)).2 (by decide) (Or.inl rfl)⟩

/-- C6 counterexample: the well-formed CSI sequence ESC `[` `m` (27, 91, 109)
split as chunk `[27]` followed by chunk `[91, 109, 10]` is not removed: the
first call drops only the trailing ESC, the second call starts back in the
normal state, so the sequence bytes 91 and 109 end up in the emitted line
`[91, 109, 0]`. -/
theorem c6_counterexample_split_sequence_not_removed :
    consumeChunk [] [] [27] = ([], []) ∧
    consumeChunk (consumeChunk [] [] [27]).1 (consumeChunk [] [] [27]).2
        [91, 109, 10] = ([], [[91, 109, 0]]) ∧
    91 ∈ [91, 109, 0] := by
  refine ⟨by simp [consumeChunk], ?_, by decide⟩
  have h1 : consumeChunk [] [] [27] = (([] : List Nat), ([] : List (List Nat))) := by
    simp [consumeChunk]
  rw [h1]
  simp [consumeChunk]

/-- C6 (amended): state persists across consume calls only in the LineBuffer,
not in the escape-filter automaton. Concretely: (a) at any chunk boundary
whose first chunk contains no ESC byte, consuming the two chunks in turn is
the same as consuming their concatenation — the partially assembled line
carries over; and (b) an ESC that ends a chunk is simply dropped, leaving the
line buffer and emitted lines unchanged, so the next chunk is processed from
the normal state and a sequence split across the boundary is not removed. -/
theorem c6_linebuffer_restartability (l : List Nat) (e : List (List Nat))
    (c1 c2 : List Nat) (h : ∀ b ∈ c1, b ≠ 27) :
    consumeChunk l e (c1 ++ c2) =
      consumeChunk (consumeChunk l e c1).1 (consumeChunk l e c1).2 c2 ∧
    consumeChunk l e (c1 ++ [27]) = consumeChunk l e c1 := by
  refine ⟨consumeChunk_append_of_noEsc c1 h l e c2, ?_⟩
  rw [consumeChunk_append_of_noEsc c1 h l e [27]]
  rw [consumeChunk.eq_def]
  simp

/-- C6 witness: the line started by chunk "a" is continued by chunk "b\n",
and a trailing ESC after "a" is dropped without touching the buffer. -/
theorem c6_witness :
    consumeChunk [] [] ([97] ++ [98, 10]) =
      consumeChunk (consumeChunk [] [] [97]).1 (consumeChunk [] [] [97]).2
        [98, 10] ∧
    consumeChunk [] [] ([97] ++ [27]) = consumeChunk [] [] [97] :=
  c6_linebuffer_restartability [] [] [97] [98, 10] (by decide)

/-! ## Decoding and flushing (`ProcessImpl::_flush`, both platforms)

`_flush` receives `rd_line` (the accumulated bytes, with the 0 terminator the
caller appended for a newline flush), decodes it, possibly logs, and clears
the buffer. Logging is modelled by the returned `Option String`: `some s`
means one `[name] s` entry is handed to the logging sink, `none` means no
entry. -/

/-- Bytes up to the first 0; both platforms' decodes stop at the appended
terminator (Windows builds a zero-terminated wide buffer and constructs the
`String` from it; POSIX calls `parse_utf8` on the raw pointer, i.e. C-string
semantics). -/
def cstrBytes (l : List Nat) : List Nat := l.takeWhile fun b => decide (b ≠ 0)

/-- Windows `MultiByteToWideChar(CP_ACP, 0, ...)`: with no error flags every
byte of the system code page maps to one (non-NUL, for non-NUL input) wide
character, so the conversion is modelled as a per-byte character map; the
resulting `String` stops at the first NUL. -/
def acpDecode (l : List Nat) : String := String.mk ((cstrBytes l).map Char.ofNat)

/-- Windows `ProcessImpl::_flush` (jsb_process.cpp lines 68-95): empty buffer
returns silently; otherwise the buffer is decoded and the line is logged only
when the decoded output is non-empty. -/
def winFlushOutput (rd_line : List Nat) : Option String :=
  if rd_line.isEmpty then none
  else
    let output := acpDecode rd_line
    if output = "" then none else some output

/-- Strict UTF-8 decoding (RFC 3629 byte ranges) of a byte list, `none` on
malformed input: the model of Godot `String::parse_utf8` used by the POSIX
`_flush` (spec section 4.2: bytes are decoded as UTF-8 directly on POSIX). -/
def utf8Decode : List Nat → Option (List Char)
  | [] => some []
  | b :: rest =>
    if b < 128 then
      (utf8Decode rest).map fun cs => Char.ofNat b :: cs
    else if 194 ≤ b ∧ b ≤ 223 then
      match rest with
      | b1 :: rest1 =>
        if 128 ≤ b1 ∧ b1 < 192 then
          (utf8Decode rest1).map fun cs =>
            Char.ofNat ((b - 192) * 64 + (b1 - 128)) :: cs
        else none
      | [] => none
    else if 224 ≤ b ∧ b ≤ 239 then
      match rest with
      | b1 :: b2 :: rest2 =>
        if (128 ≤ b1 ∧ b1 < 192) ∧ (128 ≤ b2 ∧ b2 < 192) then
          (utf8Decode rest2).map fun cs =>
            Char.ofNat (((b - 224) * 64 + (b1 - 128)) * 64 + (b2 - 128)) :: cs
        else none
      | _ => none
    else if 240 ≤ b ∧ b ≤ 244 then
      match rest with
      | b1 :: b2 :: b3 :: rest3 =>
        if (128 ≤ b1 ∧ b1 < 192) ∧ (128 ≤ b2 ∧ b2 < 192) ∧
            (128 ≤ b3 ∧ b3 < 192) then
          (utf8Decode rest3).map fun cs =>
            Char.ofNat ((((b - 240) * 64 + (b1 - 128)) * 64 + (b2 - 128)) * 64
              + (b3 - 128)) :: cs
        else none
      | _ => none
    else none

/-- POSIX `ProcessImpl::_flush` (jsb_process.cpp lines 394-404): empty buffer
returns silently; otherwise `parse_utf8` runs on the zero-terminated bytes and
the line is logged whenever the parse reports OK — including when the parsed
text is empty. -/
def posixFlushOutput (rd_line : List Nat) : Option String :=
  if rd_line.isEmpty then none
  else
    match utf8Decode (cstrBytes rd_line) with
    | some cs => some (String.mk cs)
    | none => none

/-- The Output Pump over a whole run: chunks are consumed in order starting
from an empty line buffer. -/
def pumpRun (chunks : List (List Nat)) : List Nat × List (List Nat) :=
  chunks.foldl (fun s c => consumeChunk s.1 s.2 c) ([], [])

/-- Log entries produced by the Windows pump for the given read chunks. -/
def winLoggedLines (chunks : List (List Nat)) : List String :=
  (pumpRun chunks).2.filterMap winFlushOutput

/-- Log entries produced by the POSIX pump for the given read chunks. -/
def posixLoggedLines (chunks : List (List Nat)) : List String :=
  (pumpRun chunks).2.filterMap posixFlushOutput

theorem pumpRun_abc :
    pumpRun [[97, 10, 98, 13, 10, 99]] = ([99], [[97, 0], [98, 0], [0]]) := by
  simp [pumpRun, consumeChunk]

/-- C3 counterexample: on the POSIX pipeline the input "a\nb\r\nc" produces a
third log entry, the empty line from the `\r\n` pair: the flush after `\n`
runs on the buffer `[0]` (the appended terminator), which is non-empty, parses
to the empty string with OK, and is logged — so the emitted lines are not
exactly "a" and "b". -/
theorem c3_counterexample_posix_extra_empty_line :
    posixLoggedLines [[97, 10, 98, 13, 10, 99]] = ["a", "b", ""] ∧
    posixLoggedLines [[97, 10, 98, 13, 10, 99]] ≠ ["a", "b"] := by
  have h : posixLoggedLines [[97, 10, 98, 13, 10, 99]] = ["a", "b", ""] := by
    rw [posixLoggedLines, pumpRun_abc]
    decide
  exact ⟨h, by rw [h]; decide⟩

/-- C3 (amended): for the input bytes "a\nb\r\nc" the Windows pipeline logs
exactly the lines "a" and "b", with "c" left buffered; the `\r\n` pair adds no
extra Windows log entry because the flush triggered by the second terminator
decodes only the appended 0 terminator, yielding an empty output that the
non-empty check suppresses (the buffer itself was empty when the second
terminator was processed). The POSIX pipeline logs the additional empty line
"". -/
theorem c3_line_splitting_platformwise :
    winLoggedLines [[97, 10, 98, 13, 10, 99]] = ["a", "b"] ∧
    (pumpRun [[97, 10, 98, 13, 10, 99]]).1 = [99] ∧
    posixLoggedLines [[97, 10, 98, 13, 10, 99]] = ["a", "b", ""] := by
  refine ⟨?_, by rw [pumpRun_abc], ?_⟩
  · rw [winLoggedLines, pumpRun_abc]
    decide
  · rw [posixLoggedLines, pumpRun_abc]
    decide

theorem cstrBytes_append_zero (l : List Nat) (h : ∀ b ∈ l, b ≠ 0) :
    cstrBytes (l ++ [0]) = l := by
  induction l with
  | nil => simp [cstrBytes]
  | cons b rest ih =>
    have hb : b ≠ 0 := h b (List.mem_cons_self b rest)
    simp only [cstrBytes, List.cons_append, List.takeWhile_cons, decide_eq_true hb]
    exact congrArg (b :: ·) (ih fun x hx => h x (List.mem_cons_of_mem b hx))

/-- C10: the Windows pump forwards a completed line to the logging sink only
when the decoded text is non-empty; for a NUL-free line content flushed with
its appended terminator, a blank line produces no log entry at all while any
other line is logged as its decoded text. -/
theorem c10_windows_flush_skips_empty :
    (∀ l s, winFlushOutput l = some s → s ≠ "") ∧
    (∀ line : List Nat, (∀ b ∈ line, b ≠ 0) →
      winFlushOutput (line ++ [0]) =
        if line.isEmpty then none else some (acpDecode line)) := by
  constructor
  · intro l s h
    simp only [winFlushOutput] at h
    split_ifs at h with h1 h2
    intro hs
    exact h2 (hs ▸ Option.some_inj.mp h)
  · intro line hline
    rw [winFlushOutput]
    have hne : (line ++ [0]).isEmpty = false := by simp
    rw [hne]
    simp only [Bool.false_eq_true, if_false]
    have hdec : acpDecode (line ++ [0]) = acpDecode line := by
      rw [acpDecode, acpDecode, cstrBytes_append_zero line hline,
        cstrBytes, List.takeWhile_eq_self_iff.mpr]
      intro b hb
      exact decide_eq_true (hline b hb)
    rw [hdec]
    cases hl : line with
    | nil => simp [acpDecode, cstrBytes, String.ext_iff]
    | cons b rest =>
      have : acpDecode (b :: rest) ≠ "" := by
        rw [acpDecode, cstrBytes, List.takeWhile_cons,
          decide_eq_true (hline b (by rw [hl]; exact List.mem_cons_self b rest))]
        simp [String.ext_iff]
      simp [this]

/-- C10 witness: a blank line (buffer holding only the appended terminator)
produces no log entry, while the line "b" is logged. -/
theorem c10_witness :
    winFlushOutput ([] ++ [0]) = none ∧
    winFlushOutput ([98] ++ [0]) = some (acpDecode [98]) :=
  ⟨by simpa using c10_windows_flush_skips_empty.2 [] (by decide),
   by simpa using c10_windows_flush_skips_empty.2 [98] (by decide)⟩

/-! ## Lifecycle (`Process::start/stop/is_running/create`, platform
`on_start` / `on_stop` / `_is_running`)

The Windows implementation is embedded with the OS calls abstracted into an
environment (`WinOs`: which API calls succeed, what `GetExitCodeProcess`
reports) and an action trace (`WinAct`: the externally observable calls made
by `on_stop`). The handle's fields follow jsb_process.cpp lines 30-43. -/

/-- Godot error codes returned by `on_start`. -/
inductive GdError
  | errCantFork
  | errCantCreate
  deriving DecidableEq, Repr

/-- Outcomes of the Windows API calls used by `ProcessImpl`. `exitCodeQuery`
is `GetExitCodeProcess`: `none` means the call fails, `some c` that it stores
exit code `c`. -/
structure WinOs where
  createPipeOk : Bool
  setNoInheritOk : Bool
  createProcessOk : Bool
  exitCodeQuery : Option Nat
  deriving DecidableEq, Repr

/-- `STILL_ACTIVE` (259): the exit code reported for a process that has not
exited. -/
def STILL_ACTIVE : Nat := 259

/-- The OS handles a `ProcessImpl` can hold open. -/
inductive WinHandle
  | pipeRead
  | pipeWrite
  | childProcess
  | childThread
  deriving DecidableEq, Repr

/-- Observable OS actions performed by `ProcessImpl::on_stop`, in program
order: `TerminateProcess`, the three `CloseHandle` calls, and
`thread.wait_to_finish()` (the blocking join of the Output Pump). -/
inductive WinAct
  | terminateChild
  | closeHandleProcess
  | closeHandleThread
  | closeHandlePipe
  | joinPumpThread
  deriving DecidableEq, Repr

/-- The handle state: which OS handles are currently open, the stored
`rd_pipe` / `pi.pi.hProcess` / `pi.pi.hThread` values (only `rd_pipe` is ever
nulled by `on_stop`, matching the code), the `is_closing` shutdown flag and
whether the Output Pump thread is running (joined by `wait_to_finish`). -/
structure WinState where
  openHandles : List WinHandle := []
  rd_pipe : Option WinHandle := none
  hProcess : Option WinHandle := none
  hThread : Option WinHandle := none
  is_closing : Bool := false
  threadRunning : Bool := false
  deriving DecidableEq, Repr

/-- Windows `ProcessImpl::on_start` (jsb_process.cpp lines 97-145):
`CreatePipe` failure returns `ERR_CANT_FORK` with nothing created;
`SetHandleInformation` failure returns `ERR_CANT_FORK` with both pipe ends
still open (the `ERR_FAIL_COND_V` early return performs no cleanup);
`CreateProcessW` failure closes both pipe ends then returns `ERR_CANT_FORK`;
on success the write end is closed, the read end is retained as `rd_pipe`, the
process/thread handles are recorded and the reader thread is started. -/
def winOnStart (os : WinOs) (s : WinState) : Option GdError × WinState :=
  if !os.createPipeOk then (some .errCantFork, s)
  else
    let s1 : WinState := { s with openHandles := [.pipeRead, .pipeWrite] }
    if !os.setNoInheritOk then (some .errCantFork, s1)
    else if !os.createProcessOk then
      (some .errCantFork, { s1 with openHandles := [] })
    else
      (none,
        { s1 with
          openHandles := [.pipeRead, .childProcess, .childThread],
          rd_pipe := some .pipeRead,
          hProcess := some .childProcess,
          hThread := some .childThread,
          threadRunning := true })

/-- Windows `ProcessImpl::_is_running` (jsb_process.cpp lines 218-234): false
when the shutdown flag is set or no process handle was recorded; otherwise the
live `GetExitCodeProcess` query decides — a failed query or an exit code other
than `STILL_ACTIVE` reports false. -/
def winIsRunning (os : WinOs) (s : WinState) : Bool :=
  if s.is_closing || s.hProcess.isNone then false
  else
    match os.exitCodeQuery with
    | none => false
    | some code => code == STILL_ACTIVE

/-- Windows `ProcessImpl::on_stop` (jsb_process.cpp lines 236-247): sets
`is_closing`, terminates the child, closes the process/thread handles and the
pipe read end, nulls `rd_pipe`, then blocks in `thread.wait_to_finish()` until
the Output Pump thread has exited. The returned trace lists the OS calls in
program order. -/
def winOnStop (s : WinState) : WinState × List WinAct :=
  ({ s with
      is_closing := true,
      openHandles :=
        ((s.openHandles.erase .childProcess).erase .childThread).erase .pipeRead,
      rd_pipe := none,
      threadRunning := false },
   [.terminateChild, .closeHandleProcess, .closeHandleThread, .closeHandlePipe,
    .joinPumpThread])

/-- `Process::stop` (jsb_process.cpp lines 461-465): early-returns unless
`is_running()` holds, otherwise runs `on_stop`. -/
def winStop (os : WinOs) (s : WinState) : WinState × List WinAct :=
  if winIsRunning os s then winOnStop s else (s, [])

/-- `void Process::start` (jsb_process.cpp lines 467-470): invokes `on_start`
and discards its `Error` result — the caller receives nothing. -/
def winStartRet (os : WinOs) (s : WinState) : Unit :=
  let _ := winOnStart os s
  ()

/-- The state mutation performed by the public `start`. -/
def winStart (os : WinOs) (s : WinState) : WinState := (winOnStart os s).2

/-- `Process::create` (jsb_process.cpp lines 450-455): constructs a fresh
impl, starts it, and returns the handle unconditionally. -/
def winCreate (os : WinOs) : WinState := winStart os {}

/-! ### POSIX launcher (parent side) and the child stream redirection -/

/-- Outcomes of the POSIX calls used by `ProcessImpl::on_start`: whether
`pipe()` and `fork()` succeed. -/
structure PosixOs where
  pipeOk : Bool
  forkOk : Bool
  deriving DecidableEq, Repr

/-- POSIX parent-side handle state: the two pipe file descriptors, the child
pid (`none` models `child_id_ = -1`), the shutdown flag and the reader
thread. -/
structure PosixState where
  pipeReadOpen : Bool := false
  pipeWriteOpen : Bool := false
  childId : Option Nat := none
  is_closing : Bool := false
  threadRunning : Bool := false
  deriving DecidableEq, Repr

/-- POSIX `ProcessImpl::on_start`, parent side (jsb_process.cpp lines
263-310): `pipe()` failure returns `ERR_CANT_CREATE` with nothing created;
`fork()` failure returns `ERR_CANT_FORK` with both pipe file descriptors still
open (the early return closes nothing); on success the parent closes the write
end and starts the reader thread. -/
def posixOnStart (os : PosixOs) (s : PosixState) : Option GdError × PosixState :=
  if !os.pipeOk then (some .errCantCreate, s)
  else
    let s1 : PosixState := { s with pipeReadOpen := true, pipeWriteOpen := true }
    if !os.forkOk then (some .errCantFork, s1)
    else
      (none, { s1 with pipeWriteOpen := false, childId := some 1,
                       threadRunning := true })

/-- What a child standard stream can point at after launcher setup. -/
inductive StreamTarget
  | parentStdout
  | parentStderr
  | pipeWriteEnd
  deriving DecidableEq, Repr

/-- The child's standard output and standard error targets. -/
structure ChildStreams where
  stdoutTarget : StreamTarget
  stderrTarget : StreamTarget
  deriving DecidableEq, Repr

/-- Windows redirection (jsb_process.cpp lines 122-124): with
`STARTF_USESTDHANDLES`, `pi.si.hStdOutput = pipe[1]` and
`pi.si.hStdError = pipe[1]` — both streams go to the pipe write end. -/
def winChildStreams : ChildStreams :=
  { stdoutTarget := .pipeWriteEnd, stderrTarget := .pipeWriteEnd }

/-- POSIX child branch (jsb_process.cpp lines 295-298): starting from the
inherited descriptor table, `close(pipefd[0])`, then
`dup2(pipefd[1], STDOUT_FILENO)` re-points descriptor 1 only, then
`close(pipefd[1])`; descriptor 2 is never touched before `execvp`. -/
def posixChildStreams : ChildStreams :=
  let inherited : ChildStreams :=
    { stdoutTarget := .parentStdout, stderrTarget := .parentStderr }
  { inherited with stdoutTarget := .pipeWriteEnd }

/-- A run in which every spawn-time call succeeds and the child is still
active when queried. -/
def osAllOk : WinOs :=
  { createPipeOk := true, setNoInheritOk := true, createProcessOk := true,
    exitCodeQuery := some STILL_ACTIVE }

/-- A run in which every spawn-time call succeeds but the child has since
exited on its own with exit code 0. -/
def osChildExited : WinOs :=
  { createPipeOk := true, setNoInheritOk := true, createProcessOk := true,
    exitCodeQuery := some 0 }

/-- A run in which spawning succeeds but `GetExitCodeProcess` fails. -/
def osQueryFail : WinOs :=
  { createPipeOk := true, setNoInheritOk := true, createProcessOk := true,
    exitCodeQuery := none }

/-- A run in which `CreatePipe` fails. -/
def osPipeFail : WinOs :=
  { createPipeOk := false, setNoInheritOk := true, createProcessOk := true,
    exitCodeQuery := some STILL_ACTIVE }

/-- A run in which `SetHandleInformation` on the pipe read end fails. -/
def osNoInheritFail : WinOs :=
  { createPipeOk := true, setNoInheritOk := false, createProcessOk := true,
    exitCodeQuery := some STILL_ACTIVE }

/-- A run in which `CreateProcessW` fails. -/
def osCreateProcFail : WinOs :=
  { createPipeOk := true, setNoInheritOk := true, createProcessOk := false,
    exitCodeQuery := some STILL_ACTIVE }

/-- The state of a handle after a fully successful Windows `on_start`. -/
theorem winOnStart_success_state (os : WinOs)
    (h : (winOnStart os ({} : WinState)).1 = none) :
    (winOnStart os ({} : WinState)).2 =
      { openHandles := [.pipeRead, .childProcess, .childThread],
        rd_pipe := some .pipeRead, hProcess := some .childProcess,
        hThread := some .childThread, is_closing := false,
        threadRunning := true } := by
  rcases os with ⟨cp, ni, cpr, q⟩
  cases cp <;> cases ni <;> cases cpr <;> simp_all [winOnStart]

/-- C1 counterexample: a handle whose `start()` succeeded and on which
`stop()` was never called, but whose child has already exited on its own.
`Process::stop` sees `is_running() == false` and returns immediately: no kill,
no close, no join — the reader thread is still running and all three retained
handles are still open, contradicting the claim for exactly the
already-exited case it includes. -/
theorem c1_counterexample_stop_noop_when_child_exited :
    (winOnStart osChildExited {}).1 = none ∧
    winStop osChildExited (winOnStart osChildExited {}).2 =
      ((winOnStart osChildExited {}).2, []) ∧
    ((winOnStart osChildExited {}).2).threadRunning = true ∧
    ((winOnStart osChildExited {}).2).openHandles =
      [WinHandle.pipeRead, WinHandle.childProcess, WinHandle.childThread] := by
  decide

/-- C1 (amended): for every handle whose `start()` succeeded, if
`is_running()` is still true at the moment of the call (shutdown not yet
flagged and the child still reported active), then `stop()` sets the shutdown
flag, forcibly terminates the child, closes the pipe read end and the
process/thread handles (releasing every retained OS handle), and blocks until
the Output Pump thread has exited, all before returning. If the child has
already exited on its own, `stop()` is a no-op instead. -/
theorem c1_stop_kills_joins_releases_when_running (os osq : WinOs)
    (hstart : (winOnStart os ({} : WinState)).1 = none)
    (hrun : winIsRunning osq (winOnStart os ({} : WinState)).2 = true) :
    winStop osq (winOnStart os ({} : WinState)).2 =
      ({ openHandles := [], rd_pipe := none, hProcess := some .childProcess,
         hThread := some .childThread, is_closing := true,
         threadRunning := false },
       [.terminateChild, .closeHandleProcess, .closeHandleThread,
        .closeHandlePipe, .joinPumpThread]) := by
  rw [winOnStart_success_state os hstart] at hrun ⊢
  simp only [winStop, hrun, if_true]
  decide

/-- C1 witness: on a run where the child is still active, `stop()` performs
the full teardown. -/
theorem c1_stop_witness :
    winStop osAllOk (winOnStart osAllOk ({} : WinState)).2 =
      ({ openHandles := [], rd_pipe := none, hProcess := some .childProcess,
         hThread := some .childThread, is_closing := true,
         threadRunning := false },
       [.terminateChild, .closeHandleProcess, .closeHandleThread,
        .closeHandlePipe, .joinPumpThread]) :=
  c1_stop_kills_joins_releases_when_running osAllOk osAllOk (by decide)
    (by decide)

/-- C7: `stop()` is idempotent. A second `stop()` after any completed
`stop()` performs no OS action at all (empty trace: no second kill, no second
join) and leaves the state unchanged; after any completed `stop()` call
`is_running()` reports false (the shutdown flag short-circuits the live
query); and a `stop()` issued while not running is a no-op. -/
theorem c7_stop_idempotent (os : WinOs) (s : WinState) :
    winStop os (winStop os s).1 = ((winStop os s).1, []) ∧
    winIsRunning os (winStop os s).1 = false ∧
    (winIsRunning os s = false → winStop os s = (s, [])) := by
  have noop : ∀ t : WinState, winIsRunning os t = false → winStop os t = (t, []) := by
    intro t ht
    simp [winStop, ht]
  by_cases h : winIsRunning os s = true
  · have hstop : winStop os s = winOnStop s := by simp [winStop, h]
    have hclose : winIsRunning os (winStop os s).1 = false := by
      rw [hstop]
      simp [winOnStop, winIsRunning]
    exact ⟨noop _ hclose, hclose, fun hfalse => absurd h (by simp [hfalse])⟩
  · have hf : winIsRunning os s = false := by simpa using h
    have h1 : (winStop os s).1 = s := by rw [noop s hf]
    rw [h1]
    exact ⟨noop s hf, hf, fun _ => noop s hf⟩

/-- C7 witness: on a run where the exit-code query fails, the handle is not
running and `stop()` is a no-op. -/
theorem c7_witness :
    winStop osQueryFail (winOnStart osQueryFail ({} : WinState)).2 =
      ((winOnStart osQueryFail ({} : WinState)).2, []) :=
  (c7_stop_idempotent osQueryFail (winOnStart osQueryFail {}).2).2.2
    (by decide)

/-- C2 counterexample: with `CreatePipe` failing, the internal `on_start`
does return `ERR_CANT_FORK` — but the public `start` returns void, so the
caller of `start` receives exactly what it receives on a fully successful
spawn, and `create` still returns a handle (the untouched default state)
rather than any error value. No `SpawnError` result reaches the caller. -/
theorem c2_counterexample_start_discards_error :
    (winOnStart osPipeFail ({} : WinState)).1 = some GdError.errCantFork ∧
    winStartRet osPipeFail {} = winStartRet osAllOk {} ∧
    winCreate osPipeFail = ({} : WinState) := by
  decide

/-- C2 (amended): spawn failures are reported synchronously by the platform
`on_start` as an `Error` return (`ERR_CANT_FORK` on Windows for pipe,
non-inherit and process-creation failures; `ERR_CANT_CREATE` for POSIX pipe
failure and `ERR_CANT_FORK` for POSIX fork failure), but the public
`Process::start` discards that value and returns void, and `Process::create`
returns the handle regardless; the caller can observe the failure only
through `is_running()` being false on the returned handle. -/
theorem c2_spawn_error_internal_only (os : WinOs)
    (hfail : os.createPipeOk = false ∨ os.setNoInheritOk = false ∨
      os.createProcessOk = false) :
    (winOnStart os ({} : WinState)).1 = some GdError.errCantFork ∧
    winIsRunning os (winCreate os) = false ∧
    winStartRet os {} = () ∧
    (∀ pos : PosixOs, pos.pipeOk = false →
      (posixOnStart pos ({} : PosixState)).1 = some GdError.errCantCreate) ∧
    (∀ pos : PosixOs, pos.pipeOk = true → pos.forkOk = false →
      (posixOnStart pos ({} : PosixState)).1 = some GdError.errCantFork) := by
  refine ⟨?_, ?_, rfl, ?_, ?_⟩
  · rcases os with ⟨cp, ni, cpr, q⟩
    rcases hfail with h | h | h <;> subst h <;>
      cases_type* Bool <;> simp_all [winOnStart]
  · rcases os with ⟨cp, ni, cpr, q⟩
    rcases hfail with h | h | h <;> subst h <;>
      cases_type* Bool <;>
      simp_all [winOnStart, winCreate, winStart, winIsRunning]
  · intro pos h
    rcases pos with ⟨po, fo⟩
    subst h
    simp [posixOnStart]
  · intro pos h1 h2
    rcases pos with ⟨po, fo⟩
    subst h1; subst h2
    simp [posixOnStart]

/-- C2 witness: instantiated at the pipe-creation failure. -/
theorem c2_witness :
    (winOnStart osPipeFail ({} : WinState)).1 = some GdError.errCantFork ∧
    winIsRunning osPipeFail (winCreate osPipeFail) = false :=
  ⟨(c2_spawn_error_internal_only osPipeFail (Or.inl rfl)).1,
   (c2_spawn_error_internal_only osPipeFail (Or.inl rfl)).2.1⟩

/-- C5 counterexample: after the POSIX child-side setup the child's standard
error still points at the inherited parent stderr, not at the pipe write end
— only `STDOUT_FILENO` is re-pointed by `dup2`. -/
theorem c5_counterexample_posix_stderr_not_piped :
    posixChildStreams.stderrTarget = StreamTarget.parentStderr ∧
    posixChildStreams.stderrTarget ≠ StreamTarget.pipeWriteEnd := by
  decide

/-- C5 (amended): on Windows the launcher directs both the child's standard
output and standard error to the pipe write end; on POSIX it directs only
standard output there, leaving standard error on the inherited stream, so the
captured byte stream merges stdout and stderr only on Windows. -/
theorem c5_stream_redirection :
    winChildStreams =
      { stdoutTarget := .pipeWriteEnd, stderrTarget := .pipeWriteEnd } ∧
    posixChildStreams =
      { stdoutTarget := .pipeWriteEnd, stderrTarget := .parentStderr } := by
  decide

/-- C9 counterexample: when marking the pipe read end non-inheritable fails,
the `ERR_FAIL_COND_V` early return reports the error while both freshly
created pipe ends are still open — they are not released. -/
theorem c9_counterexample_noinherit_leak :
    (winOnStart osNoInheritFail ({} : WinState)).1 = some GdError.errCantFork ∧
    ((winOnStart osNoInheritFail ({} : WinState)).2).openHandles =
      [WinHandle.pipeRead, WinHandle.pipeWrite] ∧
    ((winOnStart osNoInheritFail ({} : WinState)).2).openHandles ≠ [] := by
  decide

/-- C9 (amended): the pipe ends are released before the error is reported
only on the Windows process-creation failure path (and the pipe-creation
failure path creates none to begin with); on the Windows failure to mark the
read end non-inheritable, and on the POSIX fork failure, the already-created
pipe ends are left open when the error is reported. -/
theorem c9_pipe_release_per_path :
    ((winOnStart osPipeFail ({} : WinState)).2.openHandles = []) ∧
    ((winOnStart osCreateProcFail ({} : WinState)).1 =
        some GdError.errCantFork ∧
      (winOnStart osCreateProcFail ({} : WinState)).2.openHandles = []) ∧
    ((winOnStart osNoInheritFail ({} : WinState)).2.openHandles =
      [WinHandle.pipeRead, WinHandle.pipeWrite]) ∧
    ((posixOnStart ⟨false, true⟩ ({} : PosixState)).2.pipeReadOpen = false ∧
      (posixOnStart ⟨false, true⟩ ({} : PosixState)).2.pipeWriteOpen = false) ∧
    ((posixOnStart ⟨true, false⟩ ({} : PosixState)).1 =
        some GdError.errCantFork ∧
      (posixOnStart ⟨true, false⟩ ({} : PosixState)).2.pipeReadOpen = true ∧
      (posixOnStart ⟨true, false⟩ ({} : PosixState)).2.pipeWriteOpen = true) := by
  decide

/-! ## Windows command-line argument quoting
(`ProcessImpl::_quote_command_line_argument`, jsb_process.cpp lines 49-60) -/

/-- The per-character test of line 54: the seventeen characters whose
presence triggers quoting (space, ampersand, parentheses, square and curly
brackets, caret, equals, semicolon, bang, apostrophe, plus, comma, backquote,
tilde). `Char.ofNat 39` is the apostrophe and `Char.ofNat 96` the
backquote. -/
def isQuoteTrigger (c : Char) : Bool :=
  c = ' ' || c = '&' || c = '(' || c = ')' || c = '[' || c = ']' || c = '{' ||
  c = '}' || c = '^' || c = '=' || c = ';' || c = '!' || c = Char.ofNat 39 ||
  c = '+' || c = ',' || c = Char.ofNat 96 || c = '~'

/-- The scanning loop of `_quote_command_line_argument`: at the first
triggering character the whole text is returned wrapped in double quotes
(`Char.ofNat 34`); if the scan completes, the text is returned unchanged. -/
def quoteScan (p_text : List Char) : List Char → List Char
  | [] => p_text
  | c :: rest =>
    if isQuoteTrigger c then Char.ofNat 34 :: p_text ++ [Char.ofNat 34]
    else quoteScan p_text rest

/-- `ProcessImpl::_quote_command_line_argument`: scans its own text. -/
def quoteCommandLineArgument (p_text : List Char) : List Char :=
  quoteScan p_text p_text

theorem quoteScan_eq (p : List Char) (l : List Char) :
    quoteScan p l =
      if l.any isQuoteTrigger then Char.ofNat 34 :: p ++ [Char.ofNat 34]
      else p := by
  induction l with
  | nil => simp [quoteScan]
  | cons c rest ih =>
    by_cases hc : isQuoteTrigger c
    · simp [quoteScan, hc]
    · simp [quoteScan, hc, ih]

/-- C8: an argument is wrapped in double quotes exactly when it contains at
least one of the seventeen trigger characters (space, `&`, `(`, `)`, `[`,
`]`, `{`, `}`, `^`, `=`, `;`, `!`, apostrophe, `+`, comma, backquote, `~`),
and is returned unchanged otherwise; in particular "a b" is rendered quoted
and "ab" is rendered unquoted and unchanged. -/
theorem c8_quoting_characterization :
    (∀ arg : List Char, quoteCommandLineArgument arg =
      if arg.any isQuoteTrigger then Char.ofNat 34 :: arg ++ [Char.ofNat 34]
      else arg) ∧
    quoteCommandLineArgument ['a', ' ', 'b'] =
      [Char.ofNat 34, 'a', ' ', 'b', Char.ofNat 34] ∧
    quoteCommandLineArgument ['a', 'b'] = ['a', 'b'] ∧
    (∀ c : Char, isQuoteTrigger c = true ↔
      c ∈ [' ', '&', '(', ')', '[', ']', '{', '}', '^', '=', ';', '!',
        Char.ofNat 39, '+', ',', Char.ofNat 96, '~']) := by
  refine ⟨fun arg => quoteScan_eq arg arg, by decide, by decide, fun c => ?_⟩
  simp [isQuoteTrigger, or_assoc]

end JsbProcess
